import Mathlib

/-!
Verification development for the orcha orchestrator core
(`orcha/lib/processor.py` and `orcha/utils/cmd.py`).

The Python code is shallowly embedded: each relevant function becomes a
Lean function over explicit state.  Python dicts become association
lists with unique keys, Python ints become `Int`, queues become lists
(append at the tail), and side effects (channel writes, lifecycle
callbacks, warnings) are recorded in explicit result structures.
-/

namespace Orcha

/-- Signal numbers used by the code (`signal.SIGINT`, `signal.SIGTERM`). -/
def SIGINT : Int := 2

def SIGTERM : Int := 15

/-- A raw inbound message; the core only ever reads its id. -/
structure Message where
  id : Int
deriving DecidableEq, Repr

/-- An item written to a petition's per-unit result channel
(`p.queue.put(...)` writes either a text line or an integer status). -/
inductive ChanItem where
  | line (s : String)
  | code (n : Int)
deriving DecidableEq, Repr

/-- A petition (`orcha.interfaces.petition.Petition`) as the processor
observes it: an integer id, the value its `condition(p)` predicate
evaluates to, and an abstraction of its opaque `action(assign_pid, p)`
callable: the ordered list of pids it passes to `assign_pid` followed by
whether it raises an exception at the end. -/
structure Petition where
  id : Int
  condResult : Bool
  actionEvents : List Int
  actionRaises : Bool
deriving DecidableEq, Repr

/-- The internal priority queue contents.  `none` stands for the
`EmptyPetition` sentinel that only exists to wake the dispatcher. -/
abbrev InternalQueue := List (Option Petition)

/-- The unit registry `self._petitions : Dict[int, int]` as an
association list with unique keys. -/
abbrev Registry := List (Int × Int)

/-- Python dict assignment `d[k] = v`: overwrite in place if the key is
present, otherwise append. -/
def dictSet (d : Registry) (k v : Int) : Registry :=
  if d.any (fun kv => kv.1 == k) then
    d.map (fun kv => if kv.1 == k then (k, v) else kv)
  else d ++ [(k, v)]

/-- Python `d.pop(k, None)`: remove the key if present, no-op otherwise. -/
def dictPop (d : Registry) (k : Int) : Registry :=
  d.filter (fun kv => kv.1 != k)

/-- The manager collaborator as the processor sees it:
`convert_to_petition` and `is_running` (lifecycle hooks are recorded in
result structures instead). -/
structure ManagerModel where
  convert : Message → Option Petition
  is_running : Int → Bool

/-- `Processor.exists`: delegates to `self.manager.is_running(m)`. -/
def procExists (mgr : ManagerModel) (m : Int) : Bool :=
  mgr.is_running m

/-- The error line written on duplicate rejection,
`f'message with ID "\x7bp.id\x7d" already exists\n'`. -/
def dupLine (id : Int) : String :=
  "message with ID \"" ++ toString id ++ "\" already exists\n"

/-- Result of one iteration of the message-side relay `Processor._process`:
the internal priority queue afterwards and, if the message was rejected,
the id of the rejected petition together with the items written onto its
own result channel, in order. -/
structure ProcessStepResult where
  internalq : InternalQueue
  rejected : Option (Int × List ChanItem)
deriving DecidableEq, Repr

/-- One iteration of `Processor._process` on inbound item `m`
(`none` models the `None` shutdown sentinel read from the entry queue):
convert the message; drop it if conversion fails; if the converted
petition's id already exists (is running), write an error line and the
status code 1 onto the petition's own channel and do not enqueue it;
otherwise push the petition (or the `EmptyPetition` sentinel for `None`)
onto the internal priority queue. -/
def processStep (mgr : ManagerModel) (iq : InternalQueue) (m : Option Message) :
    ProcessStepResult :=
  match m with
  | some msg =>
    match mgr.convert msg with
    | some p =>
      if procExists mgr p.id then
        { internalq := iq
          rejected := some (p.id, [ChanItem.line (dupLine p.id), ChanItem.code 1]) }
      else
        { internalq := iq ++ [some p], rejected := none }
    | none => { internalq := iq, rejected := none }
  | none => { internalq := iq ++ [none], rejected := none }

/-- Result of one launch worker `Processor._start` run: the registry and
internal queue afterwards, whether the GC event was signaled, the ids
passed to `manager.on_start` and `manager.on_finish` (in order), whether
an action exception was caught and logged, and whether any exception
escaped the worker. -/
structure StartResult where
  registry : Registry
  internalq : InternalQueue
  gcSet : Bool
  onStart : List Int
  onFinish : List Int
  warnedException : Bool
  raisedOut : Bool
deriving DecidableEq, Repr

/-- The launch worker `Processor._start`.  If `p.condition(p)` is false,
the petition is pushed back onto the internal queue and the GC event set.
Otherwise the action runs: each `assign_pid` call does
`self._petitions[p.id] = pid` then `manager.on_start(p)`; an exception
from the action is caught and logged; the `finally` block then pops
`p.id` from the registry, sets the GC event, and calls
`manager.on_finish(p)`. -/
def start (p : Petition) (reg : Registry) (iq : InternalQueue) : StartResult :=
  if !p.condResult then
    { registry := reg, internalq := iq ++ [some p], gcSet := true
      onStart := [], onFinish := [], warnedException := false, raisedOut := false }
  else
    let reg1 := p.actionEvents.foldl (fun r pid => dictSet r p.id pid) reg
    let starts := p.actionEvents.map (fun _ => p.id)
    { registry := dictPop reg1 p.id, internalq := iq, gcSet := true
      onStart := starts, onFinish := [p.id]
      warnedException := p.actionRaises, raisedOut := false }

theorem lookup_dictPop (d : Registry) (k : Int) :
    List.lookup k (dictPop d k) = none := by
  induction d with
  | nil => rfl
  | cons kv tl ih =>
    by_cases h : kv.1 = k
    · simp [dictPop, List.filter, h, bne_self_eq_false] at *
      simpa [dictPop] using ih
    · simp only [dictPop, List.filter] at *
      have hb : (kv.1 != k) = true := by simp [bne, h]
      rw [hb]
      simp only [List.lookup]
      have hk : (k == kv.1) = false := by
        simp [beq_iff_eq]
        exact fun hh => h hh.symm
      rw [hk]
      simpa [dictPop] using ih

/-- Claim C1: when the manager converts an inbound message into a
petition whose id already exists (is running), the relay writes the
error line and then status code 1 onto that petition's own result
channel and leaves the internal priority queue unchanged; the petition
is not pushed. -/
theorem process_rejects_duplicate (mgr : ManagerModel) (iq : InternalQueue)
    (msg : Message) (p : Petition)
    (hc : mgr.convert msg = some p)
    (hr : mgr.is_running p.id = true) :
    processStep mgr iq (some msg) =
      { internalq := iq
        rejected := some (p.id, [ChanItem.line (dupLine p.id), ChanItem.code 1]) } := by
  simp [processStep, hc, procExists, hr]

/-- Concrete instantiation of `process_rejects_duplicate`. -/
theorem process_rejects_duplicate_witness :
    processStep
        { convert := fun _ => some { id := 7, condResult := true, actionEvents := [], actionRaises := false }
          is_running := fun _ => true }
        [some { id := 3, condResult := true, actionEvents := [], actionRaises := false }]
        (some { id := 7 }) =
      { internalq := [some { id := 3, condResult := true, actionEvents := [], actionRaises := false }]
        rejected := some (7, [ChanItem.line (dupLine 7), ChanItem.code 1]) } :=
  process_rejects_duplicate
    { convert := fun _ => some { id := 7, condResult := true, actionEvents := [], actionRaises := false }
      is_running := fun _ => true }
    [some { id := 3, condResult := true, actionEvents := [], actionRaises := false }]
    { id := 7 }
    { id := 7, condResult := true, actionEvents := [], actionRaises := false }
    rfl rfl

/-- Claim C6: when the petition's condition evaluates false, the launch
worker pushes the same petition back onto the internal priority queue,
signals the GC event, and ends without running the action (no lifecycle
hook fires, the registry is untouched, nothing is raised). -/
theorem start_requeues_on_false_condition (p : Petition) (reg : Registry)
    (iq : InternalQueue) (h : p.condResult = false) :
    start p reg iq =
      { registry := reg, internalq := iq ++ [some p], gcSet := true
        onStart := [], onFinish := [], warnedException := false
        raisedOut := false } := by
  simp [start, h]

/-- Claim C2: when the petition's condition evaluates true, the launch
worker runs the action; whether it returns normally or raises, the
`finally` block removes the petition's id from the registry, signals the
GC event, and calls `manager.on_finish` exactly once; an exception from
the action is only caught and logged and never escapes the worker. -/
theorem start_cleanup_always_runs (p : Petition) (reg : Registry)
    (iq : InternalQueue) (h : p.condResult = true) :
    List.lookup p.id (start p reg iq).registry = none ∧
    (start p reg iq).onFinish = [p.id] ∧
    (start p reg iq).gcSet = true ∧
    (start p reg iq).warnedException = p.actionRaises ∧
    (start p reg iq).raisedOut = false := by
  refine ⟨?_, ?_, ?_, ?_, ?_⟩ <;> simp [start, h, lookup_dictPop]

/-- Concrete instantiation of `start_cleanup_always_runs` on a petition
whose action raises after one `assign_pid` call. -/
theorem start_cleanup_always_runs_witness :
    List.lookup (1 : Int)
        (start { id := 1, condResult := true, actionEvents := [99], actionRaises := true }
          [(2, 50)] []).registry = none ∧
    (start { id := 1, condResult := true, actionEvents := [99], actionRaises := true }
        [(2, 50)] []).onFinish = [1] ∧
    (start { id := 1, condResult := true, actionEvents := [99], actionRaises := true }
        [(2, 50)] []).gcSet = true ∧
    (start { id := 1, condResult := true, actionEvents := [99], actionRaises := true }
        [(2, 50)] []).warnedException = true ∧
    (start { id := 1, condResult := true, actionEvents := [99], actionRaises := true }
        [(2, 50)] []).raisedOut = false :=
  start_cleanup_always_runs
    { id := 1, condResult := true, actionEvents := [99], actionRaises := true }
    [(2, 50)] [] rfl

/-- The successive registry states observed while one launch worker runs:
the state on entry, the state after each `assign_pid` call of the action,
and (on the condition-true path) the state after the `finally` cleanup. -/
def startTrace (p : Petition) (reg : Registry) : List Registry :=
  if p.condResult then
    List.scanl (fun r pid => dictSet r p.id pid) reg p.actionEvents
      ++ [dictPop (p.actionEvents.foldl (fun r pid => dictSet r p.id pid) reg) p.id]
  else [reg]

theorem scanl_cons_exists {α β : Type} (f : β → α → β) (b : β) (l : List α) :
    ∃ t, List.scanl f b l = b :: t := by
  cases l with
  | nil => exact ⟨[], rfl⟩
  | cons a t => exact ⟨List.scanl f (f b a) t, rfl⟩

/-- Concrete instantiation of `start_requeues_on_false_condition`. -/
theorem start_requeues_on_false_condition_witness :
    start { id := 5, condResult := false, actionEvents := [9], actionRaises := false }
        [(1, 2)] [] =
      { registry := [(1, 2)]
        internalq := [some { id := 5, condResult := false, actionEvents := [9], actionRaises := false }]
        gcSet := true, onStart := [], onFinish := [], warnedException := false
        raisedOut := false } :=
  start_requeues_on_false_condition
    { id := 5, condResult := false, actionEvents := [9], actionRaises := false }
    [(1, 2)] [] rfl

/-- Claim C7: provided the petition's id is not registered on entry, a
registry entry for it exists at most between the first `assign_pid` call
(trace index 1) and the end of the worker's cleanup (the last trace
state, where it is gone again): the entry state and the final state lack
the id, a petition that fails its condition or whose action never calls
`assign_pid` never has an entry, and any state holding the id lies at an
index in `[1, number of assign_pid calls]` on the condition-true path. -/
theorem registry_entry_window (p : Petition) (reg : Registry)
    (h0 : List.lookup p.id reg = none) :
    (p.condResult = false → ∀ s ∈ startTrace p reg, List.lookup p.id s = none) ∧
    (p.actionEvents = [] → ∀ s ∈ startTrace p reg, List.lookup p.id s = none) ∧
    (startTrace p reg).head? = some reg ∧
    (∀ last, (startTrace p reg).getLast? = some last → List.lookup p.id last = none) ∧
    (∀ i s, (startTrace p reg)[i]? = some s →
      List.lookup p.id s ≠ none →
      1 ≤ i ∧ i ≤ p.actionEvents.length ∧ p.condResult = true) := by
  by_cases hc : p.condResult
  · have htr : startTrace p reg =
        List.scanl (fun r pid => dictSet r p.id pid) reg p.actionEvents
          ++ [dictPop (p.actionEvents.foldl (fun r pid => dictSet r p.id pid) reg) p.id] := by
      simp [startTrace, hc]
    obtain ⟨t, ht⟩ :=
      scanl_cons_exists (fun r pid => dictSet r p.id pid) reg p.actionEvents
    have hlen : (List.scanl (fun r pid => dictSet r p.id pid) reg p.actionEvents).length
        = p.actionEvents.length + 1 := List.length_scanl _ _
    refine ⟨?_, ?_, ?_, ?_, ?_⟩
    · intro hfalse
      rw [hfalse] at hc
      exact absurd hc (by decide)
    · intro hev s hs
      rw [htr, hev] at hs
      simp [List.scanl] at hs
      rcases hs with h1 | h2
      · rw [h1]; exact h0
      · rw [h2]; exact lookup_dictPop _ _
    · rw [htr, ht]
      rfl
    · intro last hlast
      rw [htr, List.getLast?_concat] at hlast
      cases hlast
      exact lookup_dictPop _ _
    · intro i s hsi hmem
      rw [htr] at hsi
      by_cases hlt : i < p.actionEvents.length + 1
      · have h1 : (List.scanl (fun r pid => dictSet r p.id pid) reg p.actionEvents
              ++ [dictPop (p.actionEvents.foldl (fun r pid => dictSet r p.id pid) reg) p.id])[i]? =
            (List.scanl (fun r pid => dictSet r p.id pid) reg p.actionEvents)[i]? :=
          List.getElem?_append_left (by rw [hlen]; exact hlt)
        rw [h1] at hsi
        rcases Nat.eq_zero_or_pos i with hzero | hpos
        · exfalso
          subst hzero
          rw [ht] at hsi
          simp at hsi
          apply hmem
          rw [← hsi]
          exact h0
        · exact ⟨hpos, Nat.lt_succ_iff.mp hlt, hc⟩
      · exfalso
        obtain ⟨hbound, _⟩ := List.getElem?_eq_some.mp hsi
        have hieq : i = p.actionEvents.length + 1 := by
          simp [hlen] at hbound
          omega
        have hsc : i = (List.scanl (fun r pid => dictSet r p.id pid) reg p.actionEvents).length := by
          rw [hlen, hieq]
        rw [hsc, List.getElem?_concat_length] at hsi
        apply hmem
        cases hsi
        exact lookup_dictPop _ _
  · have hcf : p.condResult = false := by
      revert hc; cases p.condResult <;> simp
    have htr : startTrace p reg = [reg] := by
      simp [startTrace, hcf]
    refine ⟨?_, ?_, ?_, ?_, ?_⟩
    · intro _ s hs
      rw [htr] at hs
      simp at hs
      rw [hs]; exact h0
    · intro _ s hs
      rw [htr] at hs
      simp at hs
      rw [hs]; exact h0
    · rw [htr]; rfl
    · intro last hlast
      rw [htr] at hlast
      simp at hlast
      rw [← hlast]; exact h0
    · intro i s hsi hmem
      exfalso
      rw [htr] at hsi
      apply hmem
      rcases i with _ | j
      · simp at hsi
        rw [← hsi]
        exact h0
      · simp at hsi

/-- Concrete instantiation of `registry_entry_window`. -/
theorem registry_entry_window_witness :
    (startTrace { id := 1, condResult := true, actionEvents := [42, 43], actionRaises := false }
        []).head? = some [] :=
  (registry_entry_window
    { id := 1, condResult := true, actionEvents := [42, 43], actionRaises := false }
    [] rfl).2.2.1

/-- The process world as `kill_proc_tree` observes it: whether
`psutil.Process(pid)` succeeds, the recursive child list
`parent.children(recursive=True)` returns, and whether a given process
is still alive when `send_signal` reaches it (the race window the code
guards against). -/
structure ProcWorld where
  existsAtLookup : Int → Bool
  children : Int → List Int
  aliveAtSignal : Int → Bool

/-- The only exception the signaler handles: `psutil.NoSuchProcess`. -/
inductive PyErr where
  | noSuchProcess
deriving DecidableEq, Repr

/-- Outcome of the `try` body of `kill_proc_tree`: the `(pid, signal)`
pairs actually delivered so far, and the exception in flight if one was
raised. -/
structure BodyResult where
  delivered : List (Int × Int)
  err : Option PyErr
deriving DecidableEq, Repr

/-- The child-signaling loop `for child in parent.children(recursive=True):
child.send_signal(sig)`: signals are delivered in order until a child
has already exited, at which point `send_signal` raises
`NoSuchProcess` and the loop aborts. -/
def sendSignals (w : ProcWorld) (sig : Int) : List Int → BodyResult
  | [] => { delivered := [], err := none }
  | c :: cs =>
    if w.aliveAtSignal c then
      let r := sendSignals w sig cs
      { delivered := (c, sig) :: r.delivered, err := r.err }
    else
      { delivered := [], err := some PyErr.noSuchProcess }

/-- The `try` body of `kill_proc_tree`: construct the parent handle
(raising if the pid no longer exists), signal every recursive child,
and, when `including_parent`, signal the parent itself last. -/
def killBody (w : ProcWorld) (pid : Int) (including_parent : Bool) (sig : Int) :
    BodyResult :=
  if w.existsAtLookup pid then
    let r := sendSignals w sig (w.children pid)
    match r.err with
    | some e => { delivered := r.delivered, err := some e }
    | none =>
      if including_parent then
        if w.aliveAtSignal pid then
          { delivered := r.delivered ++ [(pid, sig)], err := none }
        else
          { delivered := r.delivered, err := some PyErr.noSuchProcess }
      else r
  else { delivered := [], err := some PyErr.noSuchProcess }

/-- Observable outcome of `kill_proc_tree`: the signals delivered and
whether the `except psutil.NoSuchProcess` clause fired (logging a
warning).  The function itself always returns normally. -/
structure KillResult where
  delivered : List (Int × Int)
  warned : Bool
deriving DecidableEq, Repr

/-- `kill_proc_tree(pid, including_parent, sig)` from `orcha/utils/cmd.py`:
run the body and catch `NoSuchProcess` at the boundary, turning it into
a logged warning and a normal return. -/
def kill_proc_tree (w : ProcWorld) (pid : Int) (including_parent : Bool)
    (sig : Int) : KillResult :=
  match killBody w pid including_parent sig with
  | { delivered := d, err := some PyErr.noSuchProcess } =>
    { delivered := d, warned := true }
  | { delivered := d, err := none } => { delivered := d, warned := false }

/-- Claim C9: when the process identified by `pid` no longer exists at
lookup time, the body raises `NoSuchProcess`, the boundary handler
catches it, and `kill_proc_tree` returns normally having delivered no
signal, with only a warning logged. -/
theorem kill_proc_tree_missing_pid (w : ProcWorld) (pid : Int)
    (including_parent : Bool) (sig : Int)
    (h : w.existsAtLookup pid = false) :
    killBody w pid including_parent sig =
      { delivered := [], err := some PyErr.noSuchProcess } ∧
    kill_proc_tree w pid including_parent sig =
      { delivered := [], warned := true } := by
  constructor
  · simp [killBody, h]
  · simp [kill_proc_tree, killBody, h]

/-- Concrete instantiation of `kill_proc_tree_missing_pid`. -/
theorem kill_proc_tree_missing_pid_witness :
    killBody
        { existsAtLookup := fun _ => false, children := fun _ => [2, 3]
          aliveAtSignal := fun _ => true } 1 true 15 =
      { delivered := [], err := some PyErr.noSuchProcess } ∧
    kill_proc_tree
        { existsAtLookup := fun _ => false, children := fun _ => [2, 3]
          aliveAtSignal := fun _ => true } 1 true 15 =
      { delivered := [], warned := true } :=
  kill_proc_tree_missing_pid
    { existsAtLookup := fun _ => false, children := fun _ => [2, 3]
      aliveAtSignal := fun _ => true } 1 true 15 rfl

theorem sendSignals_all_alive (w : ProcWorld) (sig : Int) (cs : List Int)
    (h : ∀ c ∈ cs, w.aliveAtSignal c = true) :
    sendSignals w sig cs =
      { delivered := cs.map (fun c => (c, sig)), err := none } := by
  induction cs with
  | nil => rfl
  | cons c tl ih =>
    have hc : w.aliveAtSignal c = true := h c (List.mem_cons_self c tl)
    have htl : ∀ x ∈ tl, w.aliveAtSignal x = true :=
      fun x hx => h x (List.mem_cons_of_mem c hx)
    simp [sendSignals, hc, ih htl]

theorem sendSignals_dead_in_middle (w : ProcWorld) (sig : Int)
    (pre : List Int) (d : Int) (post : List Int)
    (hpre : ∀ c ∈ pre, w.aliveAtSignal c = true)
    (hd : w.aliveAtSignal d = false) :
    sendSignals w sig (pre ++ d :: post) =
      { delivered := pre.map (fun c => (c, sig))
        err := some PyErr.noSuchProcess } := by
  induction pre with
  | nil => simp [sendSignals, hd]
  | cons c tl ih =>
    have hc : w.aliveAtSignal c = true := hpre c (List.mem_cons_self c tl)
    have htl : ∀ x ∈ tl, w.aliveAtSignal x = true :=
      fun x hx => hpre x (List.mem_cons_of_mem c hx)
    simp [sendSignals, hc, ih htl]

/-- Claim C10: when an already-enumerated child has exited by the time
the loop signals it, the one handler covering the whole body catches the
resulting `NoSuchProcess`: every child before it has been signaled,
every remaining child gets nothing, the parent is never signaled even
with `including_parent = true`, and the call still returns normally
flagging only the warning.  Moreover every delivered signal went to one
of the children enumerated before the dead one. -/
theorem kill_proc_tree_dead_child_aborts (w : ProcWorld) (pid : Int)
    (including_parent : Bool) (sig : Int)
    (pre : List Int) (d : Int) (post : List Int)
    (hch : w.children pid = pre ++ d :: post)
    (hpre : ∀ c ∈ pre, w.aliveAtSignal c = true)
    (hd : w.aliveAtSignal d = false)
    (hex : w.existsAtLookup pid = true) :
    kill_proc_tree w pid including_parent sig =
      { delivered := pre.map (fun c => (c, sig)), warned := true } ∧
    ∀ q s, (q, s) ∈ (kill_proc_tree w pid including_parent sig).delivered →
      q ∈ pre := by
  have hbody : killBody w pid including_parent sig =
      { delivered := pre.map (fun c => (c, sig))
        err := some PyErr.noSuchProcess } := by
    simp [killBody, hex, sendSignals_dead_in_middle w sig pre d post hpre hd, hch]
  constructor
  · simp [kill_proc_tree, hbody]
  · intro q s hq
    simp [kill_proc_tree, hbody] at hq
    rcases hq with ⟨c, hcmem, hceq, _⟩
    rw [← hceq]
    exact hcmem

/-- Concrete instantiation of `kill_proc_tree_dead_child_aborts`: parent
1 with children `[2, 3, 4]` where 3 already exited; only 2 is signaled
and the parent is skipped despite `including_parent = true`. -/
theorem kill_proc_tree_dead_child_aborts_witness :
    kill_proc_tree
        { existsAtLookup := fun p => p == 1
          children := fun p => if p == 1 then [2, 3, 4] else []
          aliveAtSignal := fun p => p != 3 } 1 true 15 =
      { delivered := [(2, 15)], warned := true } :=
  (kill_proc_tree_dead_child_aborts
    { existsAtLookup := fun p => p == 1
      children := fun p => if p == 1 then [2, 3, 4] else []
      aliveAtSignal := fun p => p != 3 } 1 true 15 [2] 3 [4]
    (by decide) (by decide) (by decide) (by decide)).1

/-- An item popped from the internal signal queue: `None`, a `Message`,
or a raw integer id. -/
abbrev SignalItem := Option (Message ⊕ Int)

/-- Observable outcome of one iteration of
`Processor._internal_signal_handler`: the unit registry afterwards,
whether the not-found warning was logged, and the signaler call outcome
if one was made. -/
structure SignalStepResult where
  petitions : Registry
  warned : Bool
  kill : Option KillResult
deriving DecidableEq, Repr

/-- One iteration of `Processor._internal_signal_handler`: normalize a
`Message` to its id; ignore `None`; if the id is not in
`self._petitions` log a warning and continue; otherwise call
`kill_proc_tree(pid, including_parent=False, sig=signal.SIGINT)` on the
recorded pid. -/
def internalSignalStep (w : ProcWorld) (pets : Registry) (item : SignalItem) :
    SignalStepResult :=
  match item with
  | none => { petitions := pets, warned := false, kill := none }
  | some it =>
    let m := match it with
      | Sum.inl msg => msg.id
      | Sum.inr i => i
    match List.lookup m pets with
    | none => { petitions := pets, warned := true, kill := none }
    | some pid =>
      { petitions := pets, warned := false
        kill := some (kill_proc_tree w pid false SIGINT) }

/-- Claim C3: a signaled id found in the registry triggers
`kill_proc_tree` on the recorded pid with `including_parent = false` and
signal SIGINT, so (when the processes are live) exactly the recorded
pid's children receive the interrupt and the pid itself does not; an
absent id only logs a warning, leaves the registry untouched, and
surfaces no error. -/
theorem signal_consumer_step (w : ProcWorld) (pets : Registry) (m : Int) :
    (List.lookup m pets = none →
      internalSignalStep w pets (some (Sum.inr m)) =
        { petitions := pets, warned := true, kill := none }) ∧
    (∀ pid, List.lookup m pets = some pid →
      w.existsAtLookup pid = true →
      (∀ c ∈ w.children pid, w.aliveAtSignal c = true) →
      pid ∉ w.children pid →
      internalSignalStep w pets (some (Sum.inr m)) =
        { petitions := pets, warned := false
          kill := some { delivered := (w.children pid).map (fun c => (c, SIGINT))
                         warned := false } } ∧
      (pid, SIGINT) ∉ (w.children pid).map (fun c => (c, SIGINT))) := by
  constructor
  · intro hnone
    simp [internalSignalStep, hnone]
  · intro pid hpid hex halive hnotchild
    have hkill : kill_proc_tree w pid false SIGINT =
        { delivered := (w.children pid).map (fun c => (c, SIGINT))
          warned := false } := by
      simp [kill_proc_tree, killBody, hex,
        sendSignals_all_alive w SIGINT (w.children pid) halive]
    constructor
    · simp [internalSignalStep, hpid, hkill]
    · intro hmem
      rcases List.mem_map.mp hmem with ⟨c, hcmem, hceq⟩
      have : c = pid := congrArg Prod.fst hceq
      rw [this] at hcmem
      exact hnotchild hcmem

/-- Concrete instantiation of `signal_consumer_step`: id 5 maps to pid
7 whose live children are 8 and 9; both children and only they get
SIGINT. -/
theorem signal_consumer_step_witness :
    internalSignalStep
        { existsAtLookup := fun p => p == 7
          children := fun p => if p == 7 then [8, 9] else []
          aliveAtSignal := fun _ => true }
        [(5, 7)] (some (Sum.inr 5)) =
      { petitions := [(5, 7)], warned := false
        kill := some { delivered := [(8, SIGINT), (9, SIGINT)], warned := false } } ∧
    ((7 : Int), SIGINT) ∉ [((8 : Int), SIGINT), ((9 : Int), SIGINT)] :=
  ((signal_consumer_step
    { existsAtLookup := fun p => p == 7
      children := fun p => if p == 7 then [8, 9] else []
      aliveAtSignal := fun _ => true }
    [(5, 7)] 5).2 7 rfl rfl (by decide) (by decide))

/-- Worker threads in the Thread Ledger, identified by ids, with an
aliveness predicate standing for `thread.is_alive()`. -/
abbrev Ledger := List Nat

/-- The GC scan loop of `Processor._gc`, modelling Python list-iterator
semantics exactly: `for thread in self._threads` keeps an index into the
(mutating) list, and `self._threads.remove(thread)` deletes the first
occurrence in place, shifting later entries left while the iterator
still advances.  `fuel` only bounds the recursion; it starts above the
list length and the index grows every step while the list never grows,
so it is never exhausted. -/
def gcLoop (alive : Nat → Bool) : Nat → Ledger → Nat → Ledger
  | 0, xs, _ => xs
  | fuel + 1, xs, i =>
    if h : i < xs.length then
      let t := xs.get ⟨i, h⟩
      if alive t then gcLoop alive fuel xs (i + 1)
      else gcLoop alive fuel (xs.erase t) (i + 1)
    else xs

/-- One wake-up of `Processor._gc` after the event is cleared: a single
pass of the `for thread in self._threads: if not thread.is_alive():
self._threads.remove(thread)` loop. -/
def gcScan (alive : Nat → Bool) (xs : Ledger) : Ledger :=
  gcLoop alive (xs.length + 1) xs 0

/-- Claim C4 fails on the code: with two consecutive finished threads
the scan removes only the first one.  Removing element 0 shifts element
1 into index 0 while the iterator advances to index 1, so the second
finished thread is skipped and survives the scan, contradicting
"after the scan, no entry that was finished before the scan began
remains". -/
theorem gc_scan_misses_second_dead_thread :
    gcScan (fun _ => false) [0, 1] = [1] := by decide

/-- The singleton state of `Processor`: `__must_init__` and the fields
`(queue, finishq, manager)` assigned by a completed `__init__`
(collaborator objects are represented by opaque numeric tokens). -/
structure PInstance where
  mustInit : Bool
  fields : Option (Nat × Nat × Nat)
deriving DecidableEq, Repr

/-- The `ValueError` message of `Processor.__init__`. -/
def initErrMsg : String :=
  "queue & manager objects cannot be empty during init"

/-- One call `Processor(queue, finishq, manager)` against the current
singleton slot `Processor.__instance__`.  `__new__` allocates and stores
an instance in the slot when it is empty (before `__init__` runs), then
`__init__` checks `__must_init__`; with any argument missing it raises
`ValueError` after the slot was already written; otherwise it assigns
the fields and clears `__must_init__`.  Returns the slot afterwards and
the call result (`Except.error` models the raised exception). -/
def construct (slot : Option PInstance) (q fq mgr : Option Nat) :
    Option PInstance × Except String PInstance :=
  let inst := match slot with
    | none => { mustInit := true, fields := none }
    | some i => i
  let slot1 : Option PInstance := some inst
  if inst.mustInit then
    match q, fq, mgr with
    | some a, some b, some c =>
      let inst2 : PInstance := { mustInit := false, fields := some (a, b, c) }
      (some inst2, Except.ok inst2)
    | _, _, _ => (slot1, Except.error initErrMsg)
  else (slot1, Except.ok inst)

/-- Claim C5 fails on the code: the very first construction with missing
arguments does raise the initialization error, but `__new__` has already
stored the fresh instance in `Processor.__instance__` before `__init__`
raises, so a singleton instance IS kept by the failed attempt. -/
theorem construct_error_keeps_instance :
    (construct none none none none).2 = Except.error initErrMsg ∧
    (construct none none none none).1 = some { mustInit := true, fields := none } ∧
    (construct none none none none).1 ≠ none := by
  refine ⟨rfl, rfl, ?_⟩
  intro h
  simp [construct] at h

/-- Claim C5 (amended): missing arguments on the very first construction
raise the initialization error immediately and no fields are assigned,
but the allocated instance stays in the singleton slot with
`__must_init__` still true, so a later construction with all three
arguments still performs the real initialization and succeeds. -/
theorem construct_missing_args_raises (q fq mgr : Option Nat)
    (h : q = none ∨ fq = none ∨ mgr = none) :
    (construct none q fq mgr).2 = Except.error initErrMsg ∧
    (construct none q fq mgr).1 = some { mustInit := true, fields := none } ∧
    ∀ a b c : Nat,
      (construct (construct none q fq mgr).1 (some a) (some b) (some c)).2 =
        Except.ok { mustInit := false, fields := some (a, b, c) } := by
  have heq : construct none q fq mgr =
      (some { mustInit := true, fields := none }, Except.error initErrMsg) := by
    rcases q with _ | a
    · rfl
    · rcases fq with _ | b
      · rfl
      · rcases mgr with _ | c
        · rfl
        · rcases h with h | h | h <;> exact absurd h (by simp)
  refine ⟨?_, ?_, ?_⟩
  · rw [heq]
  · rw [heq]
  · intro a b c
    rw [heq]
    rfl

/-- Concrete instantiation of `construct_missing_args_raises`: the
failed first attempt (queue missing) does not prevent a later successful
construction. -/
theorem construct_missing_args_raises_witness :
    (construct (construct none none (some 2) (some 3)).1
        (some 1) (some 2) (some 3)).2 =
      Except.ok { mustInit := false, fields := some (1, 2, 3) } :=
  (construct_missing_args_raises none (some 2) (some 3) (Or.inl rfl)).2.2 1 2 3

/-- The behavior of the spawned subprocess as `run_command` observes it:
the pid of the process handle, the merged stdout/stderr lines in arrival
order, and the exit code `proc.wait()` returns. -/
structure CmdBehavior where
  pid : Int
  lines : List String
  exitCode : Int
deriving DecidableEq, Repr

/-- The process handle `on_start` receives. -/
structure Handle where
  pid : Int
deriving DecidableEq, Repr

/-- `run_command` from `orcha/utils/cmd.py`, with the three callbacks as
optional state transformers over a caller state `σ` (`none` models the
default no-op `empty`): spawn, call `on_start(proc)`, stream each output
line to `on_output`, wait for the exit code, call `on_finish(ret)` and
return `ret`. -/
def run_command {σ : Type} (onStart : Option (Handle → σ → σ))
    (onOutput : Option (String → σ → σ)) (onFinish : Option (Int → σ → σ))
    (b : CmdBehavior) (s0 : σ) : σ × Int :=
  let os := onStart.getD (fun _ s => s)
  let oo := onOutput.getD (fun _ s => s)
  let ofi := onFinish.getD (fun _ s => s)
  let s1 := os { pid := b.pid } s0
  let s2 := b.lines.foldl (fun s l => oo l s) s1
  let ret := b.exitCode
  let s3 := ofi ret s2
  (s3, ret)

/-- Callback invocations of one `run_command` call, in order. -/
inductive RunEvent where
  | start (pid : Int)
  | output (line : String)
  | finish (code : Int)
deriving DecidableEq, Repr

/-- `run_command` with recording callbacks: the returned list is the
exact order in which the three callbacks fired. -/
def runTrace (b : CmdBehavior) : List RunEvent × Int :=
  run_command
    (some (fun h t => t ++ [RunEvent.start h.pid]))
    (some (fun l t => t ++ [RunEvent.output l]))
    (some (fun c t => t ++ [RunEvent.finish c])) b []

theorem foldl_record {α β : Type} (f : α → β) (acc : List β) (xs : List α) :
    xs.foldl (fun t l => t ++ [f l]) acc = acc ++ xs.map f := by
  induction xs generalizing acc with
  | nil => simp
  | cons x tl ih => simp [List.foldl, ih]

/-- Claim C8: `run_command` invokes `on_start` with the spawned process
handle first, before any output; delivers every merged output line to
`on_output` in arrival order; then invokes `on_finish` with the exit
code; and returns that same exit code. -/
theorem run_command_event_order (b : CmdBehavior) :
    runTrace b =
      (RunEvent.start b.pid ::
        (b.lines.map RunEvent.output ++ [RunEvent.finish b.exitCode]),
       b.exitCode) := by
  simp [runTrace, run_command, foldl_record]

end Orcha
